import Mathlib

/-
Verification of the team-name voting application (src/main.py).

The embedding models the three core operations of the program:
  add_name        (SubmissionRegistry.submit)
  cast_votes      (VoteLedger.castVotes)
  get_leaderboard (LeaderboardAggregator.buildLeaderboard)

Persistent stores are passed explicitly.  A store read that fails in the
program (unreadable or corrupt file) is modelled by the value
Option.none for the whole store; a readable store is Option.some of a
list of rows.  A pandas cell is modelled by Option String, where
Option.none models a missing value (NaN in pandas).  Wall-clock time is
modelled by a Nat (seconds on an arbitrary epoch); datetime comparison
is Nat comparison.
-/

namespace NameVoting

/-- A single pandas cell: Option.none models a missing value (NaN). -/
abbrev Cell := Option String

/-- Python str.strip(): remove leading and trailing whitespace. -/
def pyStrip (s : String) : String :=
  String.mk (((s.data.dropWhile Char.isWhitespace).reverse.dropWhile
    Char.isWhitespace).reverse)

/-- Python str.lower(): lower-case every character. -/
def pyLower (s : String) : String :=
  String.mk (s.data.map Char.toLower)

/-- Conversion performed by astype in pandas applied to a cell: a missing
value is rendered as the four-letter string nan, a present string is kept. -/
def cellStr : Cell → String
  | Option.none => "nan"
  | Option.some s => s

/-- astype applied to a whole column: every cell becomes a present string
cell; in particular no missing value remains afterwards. -/
def astypeStrCol (xs : List Cell) : List Cell :=
  xs.map (fun c => Option.some (cellStr c))

/-- dropna on a column: removes the missing cells. -/
def dropna (xs : List Cell) : List Cell :=
  xs.filter Option.isSome

/-- tolist on a column all of whose cells are present. -/
def tolist (xs : List Cell) : List String :=
  xs.filterMap id

/-- Helper for the dict.fromkeys de-duplication: keeps the first
occurrence of each element, in order, skipping elements seen before. -/
def dedupFirstAux (seen : List String) : List String → List String
  | [] => []
  | x :: xs =>
      if seen.contains x then dedupFirstAux seen xs
      else x :: dedupFirstAux (x :: seen) xs

/-- list(dict.fromkeys(l)) from the program: de-duplicate preserving
first-seen order. -/
def dedupFirst (l : List String) : List String :=
  dedupFirstAux [] l

/-- A row of the submissions store: columns Name, Tag, Timestamp. -/
structure SubRow where
  name : Cell
  tag : Cell
  timestamp : Cell
  deriving DecidableEq

/-- The configured opening instant VOTING_START, datetime(2025, 4, 2,
20, 38, 0), encoded as epoch seconds. -/
def VOTING_START : Nat := 1743626280

/-- VOTING_START.strftime of the program: the opening instant formatted. -/
def votingStartStr : String := "2025-04-02 20:38:00"

/-- The value the presentation layer passes as selected_names: Python is
dynamically typed, so the argument may be None, a single string, or a
list of strings. -/
inductive Selection where
  | none
  | str (s : String)
  | list (names : List String)
  deriving DecidableEq

/-- The test selected_names is None or selected_names == [] from the
program.  A Python string never compares equal to a list, so a string,
even the empty one, does not pass this test. -/
def selectionIsEmpty : Selection → Bool
  | Selection.none => true
  | Selection.str _ => false
  | Selection.list l => l.isEmpty

/-- The list of names a non-empty selection denotes after the
isinstance(selected_names, str) wrapping step: a single string becomes a
one-element list.  The Selection.none arm is unreachable, since the
emptiness test has already returned by then. -/
def selectionNames : Selection → List String
  | Selection.none => []
  | Selection.str s => [s]
  | Selection.list l => l

/-- add_name from the program.  Arguments: the raw name and tag, the
submissions store (Option.none when unreadable), and the formatted
current timestamp.  Returns the message and the store as left on disk:
unchanged on a decline, rewritten with the appended row on success. -/
def add_name (name tag : String) (sub_store : Option (List SubRow))
    (nowStr : String) : String × Option (List SubRow) :=
  let name := pyStrip name
  let tag := pyStrip tag
  if name = "" then
    ("⚠️ Please enter a team name.", sub_store)
  else if tag = "" then
    ("⚠️ Please include an anonymous tag.", sub_store)
  else
    let sub_df := sub_store.getD []
    if (sub_df.map (fun r => pyLower (cellStr r.name))).contains (pyLower name) then
      ("⚠️ The name \x27" ++ name ++ "\x27 has already been submitted.", sub_store)
    else
      ("✅ Team name \x27" ++ name ++ "\x27 with tag \x27" ++ tag ++
         "\x27 submitted successfully at " ++ nowStr ++ "!",
       Option.some (sub_df ++ [⟨Option.some name, Option.some tag, Option.some nowStr⟩]))

/-- The exact condition under which add_name declines, read off its
three guard branches: empty trimmed name, empty trimmed tag, or the
lower-cased trimmed name matching a lower-cased stored name. -/
def submitDeclineCond (name tag : String)
    (sub_store : Option (List SubRow)) : Prop :=
  pyStrip name = "" ∨ pyStrip tag = "" ∨
    pyLower (pyStrip name) ∈
      (sub_store.getD []).map (fun r => pyLower (cellStr r.name))

instance (name tag : String) (sub_store : Option (List SubRow)) :
    Decidable (submitDeclineCond name tag sub_store) := by
  unfold submitDeclineCond
  infer_instance

/-- cast_votes from the program.  Arguments: the selection, the
remaining budget (a Python int, so an Int), the current instant, and the
votes store (Option.none when unreadable).  Returns new_remaining, the
message, and the votes store as left on disk. -/
def cast_votes (selected_names : Selection) (votes_remaining : Int)
    (now : Nat) (votes_store : Option (List Cell)) :
    Int × String × Option (List Cell) :=
  if now < VOTING_START then
    (votes_remaining,
     "⚠️ Voting is not open yet. Please come back after " ++ votingStartStr ++ ".",
     votes_store)
  else if selectionIsEmpty selected_names then
    (votes_remaining, "⚠️ No names selected. Please choose up to 3.", votes_store)
  else
    let names := selectionNames selected_names
    if votes_remaining ≤ 0 then
      (votes_remaining, "⚠️ You have no votes remaining.", votes_store)
    else if votes_remaining < (names.length : Int) then
      (votes_remaining,
       "⚠️ You can only vote for " ++ toString votes_remaining ++ " more name(s).",
       votes_store)
    else
      let votes_df := votes_store.getD []
      let new_votes : List Cell := names.map (fun n => Option.some n)
      let new_remaining := votes_remaining - (names.length : Int)
      let base :=
        if names.length = 1 then "✅ Vote recorded!" else "✅ Votes recorded!"
      let message :=
        if 0 < new_remaining then
          base ++ " You have " ++ toString new_remaining ++ " vote(s) left."
        else
          base ++ " You have no votes left."
      (new_remaining, message, Option.some (votes_df ++ new_votes))

/-- Stable insertion into a list sorted by vote count descending: walks
past rows with a strictly larger count and inserts before the first row
whose count is less than or equal, so a newly inserted row goes before
the rows of equal count that came after it. -/
def insertDesc (p : String × Nat) : List (String × Nat) → List (String × Nat)
  | [] => [p]
  | q :: qs => if p.2 < q.2 then q :: insertDesc p qs else p :: q :: qs

/-- leaderboard_data.sort(key votes, reverse) from the program: the
Python list sort is stable, so rows of equal count keep their relative
order.  Any stable sort by the same key computes the same list, so a
stable insertion sort is an exact model. -/
def sortVotesDesc : List (String × Nat) → List (String × Nat)
  | [] => []
  | p :: ps => insertDesc p (sortVotesDesc ps)

/-- The de-duplicated submission name list all_names built by
get_leaderboard: astype, then dropna (which removes nothing, astype
having already replaced every missing cell by the string nan), then
dict.fromkeys de-duplication. -/
def allSubNames (sub_store : Option (List SubRow)) : List String :=
  dedupFirst (tolist (dropna (astypeStrCol ((sub_store.getD []).map SubRow.name))))

/-- The vote name column after astype, as read by get_leaderboard. -/
def voteNames (votes_store : Option (List Cell)) : List String :=
  tolist (astypeStrCol (votes_store.getD []))

/-- The unsorted row list built by get_leaderboard: one row per
de-duplicated submission name with its vote count (value_counts lookup,
default 0), then one row per voted name absent from the submission
names, in first-encountered order among the votes (unique preserves the
order of first appearance). -/
def leaderboardBase (sub_store : Option (List SubRow))
    (votes_store : Option (List Cell)) : List (String × Nat) :=
  let all_names := allSubNames sub_store
  let vote_names := voteNames votes_store
  let leaderboard_data := all_names.map (fun n => (n, vote_names.count n))
  let orphans :=
    ((dedupFirst vote_names).filter (fun n => ¬ all_names.contains n)).map
      (fun n => (n, vote_names.count n))
  leaderboard_data ++ orphans

/-- get_leaderboard from the program: the row list sorted by vote count
descending with the stable Python sort. -/
def get_leaderboard (sub_store : Option (List SubRow))
    (votes_store : Option (List Cell)) : List (String × Nat) :=
  sortVotesDesc (leaderboardBase sub_store votes_store)

/-! Helper lemmas about the stable descending sort and the first-seen
de-duplication. -/

lemma mem_insertDesc {p x : String × Nat} {l : List (String × Nat)} :
    x ∈ insertDesc p l ↔ x = p ∨ x ∈ l := by
  induction l with
  | nil => simp [insertDesc]
  | cons q qs ih =>
      by_cases h : p.2 < q.2
      · simp only [insertDesc, if_pos h, List.mem_cons, ih]
        tauto
      · simp only [insertDesc, if_neg h, List.mem_cons]

lemma pairwise_insertDesc {p : String × Nat} {l : List (String × Nat)}
    (h : l.Pairwise (fun a b => b.2 ≤ a.2)) :
    (insertDesc p l).Pairwise (fun a b => b.2 ≤ a.2) := by
  induction l with
  | nil => simp [insertDesc]
  | cons q qs ih =>
      rcases List.pairwise_cons.mp h with ⟨hq, hqs⟩
      by_cases hpq : p.2 < q.2
      · rw [insertDesc, if_pos hpq]
        refine List.pairwise_cons.mpr ⟨?_, ih hqs⟩
        intro x hx
        rcases mem_insertDesc.mp hx with rfl | hx
        · exact Nat.le_of_lt hpq
        · exact hq x hx
      · rw [insertDesc, if_neg hpq]
        refine List.pairwise_cons.mpr ⟨?_, h⟩
        intro x hx
        rcases List.mem_cons.mp hx with rfl | hx
        · exact Nat.le_of_not_lt hpq
        · exact Nat.le_trans (hq x hx) (Nat.le_of_not_lt hpq)

lemma pairwise_sortVotesDesc (l : List (String × Nat)) :
    (sortVotesDesc l).Pairwise (fun a b => b.2 ≤ a.2) := by
  induction l with
  | nil => simp [sortVotesDesc]
  | cons p ps ih => exact pairwise_insertDesc ih

lemma mem_sortVotesDesc {x : String × Nat} {l : List (String × Nat)} :
    x ∈ sortVotesDesc l ↔ x ∈ l := by
  induction l with
  | nil => simp [sortVotesDesc]
  | cons p ps ih =>
      simp only [sortVotesDesc, mem_insertDesc, ih, List.mem_cons]

lemma filter_insertDesc (p : String × Nat) (l : List (String × Nat)) (c : Nat) :
    (insertDesc p l).filter (fun r => r.2 == c) =
      if p.2 = c then p :: l.filter (fun r => r.2 == c)
      else l.filter (fun r => r.2 == c) := by
  induction l with
  | nil => by_cases h : p.2 = c <;> simp [insertDesc, h]
  | cons q qs ih =>
      by_cases hpq : p.2 < q.2
      · rw [insertDesc, if_pos hpq]
        by_cases hp : p.2 = c
        · have hqc : ¬ q.2 = c := by omega
          simp [List.filter_cons, hp, hqc, ih]
        · by_cases hqc : q.2 = c <;> simp [List.filter_cons, hp, hqc, ih]
      · rw [insertDesc, if_neg hpq]
        by_cases hp : p.2 = c <;> by_cases hqc : q.2 = c <;>
          simp [List.filter_cons, hp, hqc]

lemma filter_sortVotesDesc (l : List (String × Nat)) (c : Nat) :
    (sortVotesDesc l).filter (fun r => r.2 == c) =
      l.filter (fun r => r.2 == c) := by
  induction l with
  | nil => rfl
  | cons p ps ih =>
      rw [sortVotesDesc, filter_insertDesc]
      by_cases hp : p.2 = c <;> simp [List.filter_cons, hp, ih]

lemma mem_of_mem_dedupFirstAux {a : String} :
    ∀ {seen l : List String}, a ∈ dedupFirstAux seen l → a ∈ l := by
  intro seen l
  induction l generalizing seen with
  | nil => simp [dedupFirstAux]
  | cons x xs ih =>
      simp only [dedupFirstAux]
      split
      · intro h
        exact List.mem_cons_of_mem _ (ih h)
      · intro h
        rcases List.mem_cons.mp h with rfl | h
        · exact List.mem_cons_self _ _
        · exact List.mem_cons_of_mem _ (ih h)

lemma mem_of_mem_dedupFirst {a : String} {l : List String}
    (h : a ∈ dedupFirst l) : a ∈ l :=
  mem_of_mem_dedupFirstAux h

/-! Theorems settling the claims. -/

/-- The successful branch of cast_votes: at or after the opening
instant, with a non-empty name list no longer than the positive budget,
the votes are appended, the budget is decremented by the number of
names, and the message is built from the pluralized stem and the
remaining-budget tail. -/
lemma cast_votes_success (names : List String) (remaining : Int) (now : Nat)
    (store : Option (List Cell)) (hnow : VOTING_START ≤ now) (hne : names ≠ [])
    (hpos : 0 < remaining) (hlen : (names.length : Int) ≤ remaining) :
    cast_votes (Selection.list names) remaining now store =
      (remaining - (names.length : Int),
       (if 0 < remaining - (names.length : Int) then
          (if names.length = 1 then "✅ Vote recorded!" else "✅ Votes recorded!") ++
            " You have " ++ toString (remaining - (names.length : Int)) ++
            " vote(s) left."
        else
          (if names.length = 1 then "✅ Vote recorded!" else "✅ Votes recorded!") ++
            " You have no votes left."),
       Option.some (store.getD [] ++ names.map Option.some)) := by
  rw [cast_votes, if_neg (Nat.not_lt.mpr hnow),
    if_neg (by simp [selectionIsEmpty, hne])]
  dsimp only [selectionNames]
  rw [if_neg (not_le.mpr hpos), if_neg (not_lt.mpr hlen)]

/-- C1: at or after the opening instant, a call to cast_votes with a
non-empty list of selected names whose length is at most the positive
remaining budget appends one vote record per selected name (duplicates
each recorded), returns remaining minus the number of names, and the
message pluralizes on the number of names and reports the remaining
budget; in particular selecting Alpha and Beta with budget 3 returns
budget 1 and the stated message. -/
theorem C1_cast_votes_success (names : List String) (remaining : Int)
    (now : Nat) (store : Option (List Cell)) (hnow : VOTING_START ≤ now)
    (hne : names ≠ []) (hpos : 0 < remaining)
    (hlen : (names.length : Int) ≤ remaining) :
    cast_votes (Selection.list names) remaining now store =
      (remaining - (names.length : Int),
       (if 0 < remaining - (names.length : Int) then
          (if names.length = 1 then "✅ Vote recorded!" else "✅ Votes recorded!") ++
            " You have " ++ toString (remaining - (names.length : Int)) ++
            " vote(s) left."
        else
          (if names.length = 1 then "✅ Vote recorded!" else "✅ Votes recorded!") ++
            " You have no votes left."),
       Option.some (store.getD [] ++ names.map Option.some)) ∧
    cast_votes (Selection.list ["Alpha", "Beta"]) 3 now store =
      (1, "✅ Votes recorded! You have 1 vote(s) left.",
       Option.some (store.getD [] ++ [Option.some "Alpha", Option.some "Beta"])) := by
  constructor
  · exact cast_votes_success names remaining now store hnow hne hpos hlen
  · have h2 := cast_votes_success ["Alpha", "Beta"] 3 now store hnow
      (by decide) (by decide) (by decide)
    refine h2.trans ?_
    simp only [Prod.mk.injEq]
    exact ⟨by decide, by decide, rfl⟩

/-- C1 witness: the concrete call at the opening instant on an empty
votes store. -/
theorem C1_cast_votes_success_witness :
    cast_votes (Selection.list ["Alpha", "Beta"]) 3 VOTING_START (Option.some []) =
      (1, "✅ Votes recorded! You have 1 vote(s) left.",
       Option.some [Option.some "Alpha", Option.some "Beta"]) := by
  have h := (C1_cast_votes_success ["Alpha", "Beta"] 3 VOTING_START
    (Option.some []) (le_refl _) (by decide) (by decide) (by decide)).2
  exact h

/-- C4: at or after the opening instant the validation checks run in
order empty selection, then non-positive budget, then selection longer
than the budget; the first failing check wins, each decline returns the
unchanged budget and untouched store with its stated message, and with
budget 0 every call is declined whatever the selection. -/
theorem C4_validation_order (remaining : Int) (now : Nat)
    (store : Option (List Cell)) (hnow : VOTING_START ≤ now) :
    (∀ sel, selectionIsEmpty sel = true →
        cast_votes sel remaining now store =
          (remaining, "⚠️ No names selected. Please choose up to 3.", store)) ∧
    (∀ sel, selectionIsEmpty sel = false → remaining ≤ 0 →
        cast_votes sel remaining now store =
          (remaining, "⚠️ You have no votes remaining.", store)) ∧
    (∀ sel, selectionIsEmpty sel = false → 0 < remaining →
        remaining < ((selectionNames sel).length : Int) →
        cast_votes sel remaining now store =
          (remaining,
           "⚠️ You can only vote for " ++ toString remaining ++ " more name(s).",
           store)) ∧
    (remaining = 0 → ∀ sel,
        cast_votes sel remaining now store =
          (remaining,
           (if selectionIsEmpty sel then
              "⚠️ No names selected. Please choose up to 3."
            else "⚠️ You have no votes remaining."),
           store)) := by
  have hgate : ¬ now < VOTING_START := Nat.not_lt.mpr hnow
  have b1 : ∀ sel, selectionIsEmpty sel = true →
      cast_votes sel remaining now store =
        (remaining, "⚠️ No names selected. Please choose up to 3.", store) := by
    intro sel hsel
    rw [cast_votes, if_neg hgate, if_pos hsel]
  have b2 : ∀ sel, selectionIsEmpty sel = false → remaining ≤ 0 →
      cast_votes sel remaining now store =
        (remaining, "⚠️ You have no votes remaining.", store) := by
    intro sel hsel hrem
    rw [cast_votes, if_neg hgate, if_neg (by simp [hsel])]
    dsimp only
    rw [if_pos hrem]
  refine ⟨b1, b2, ?_, ?_⟩
  · intro sel hsel hpos hlen
    rw [cast_votes, if_neg hgate, if_neg (by simp [hsel])]
    dsimp only
    rw [if_neg (not_le.mpr hpos), if_pos hlen]
  · intro hrem sel
    by_cases hsel : selectionIsEmpty sel = true
    · rw [if_pos hsel]
      exact b1 sel hsel
    · rw [if_neg hsel]
      exact b2 sel (by simpa using hsel) (le_of_eq hrem)

/-- C4 witness: with budget 0 at the opening instant, a two-name
selection is declined with the no-votes-remaining message, the budget
and store unchanged. -/
theorem C4_validation_order_witness :
    cast_votes (Selection.list ["A", "B"]) 0 VOTING_START (Option.some []) =
      (0, "⚠️ You have no votes remaining.", Option.some []) := by
  have h := ((C4_validation_order 0 VOTING_START (Option.some [])
    (le_refl _)).2.2.2 rfl) (Selection.list ["A", "B"])
  exact h.trans (by decide)

/-- C9: cast_votes treats a single string as a one-element selection;
the empty string is not caught by the empty-selection test (which only
recognizes None and the empty list), so at or after the opening instant
with at least one vote left, casting the empty string records one vote
for the empty-string name and decrements the budget by one. -/
theorem C9_string_selection (s : String) (remaining : Int) (now : Nat)
    (store : Option (List Cell)) :
    cast_votes (Selection.str s) remaining now store =
      cast_votes (Selection.list [s]) remaining now store ∧
    (VOTING_START ≤ now → 1 ≤ remaining →
      cast_votes (Selection.str "") remaining now store =
        (remaining - 1,
         (if 0 < remaining - 1 then
            "✅ Vote recorded!" ++ " You have " ++ toString (remaining - 1) ++
              " vote(s) left."
          else "✅ Vote recorded!" ++ " You have no votes left."),
         Option.some (store.getD [] ++ [Option.some ""]))) := by
  constructor
  · rfl
  · intro hnow hrem
    have h1 : cast_votes (Selection.str "") remaining now store =
        cast_votes (Selection.list [""]) remaining now store := rfl
    have h2 := cast_votes_success [""] remaining now store hnow (by decide)
      (by omega) (by simpa using hrem)
    rw [h1, h2]
    norm_num

/-- C9 witness: casting the empty string with one vote left at the
opening instant records the empty-string vote and exhausts the budget. -/
theorem C9_string_selection_witness :
    cast_votes (Selection.str "") 1 VOTING_START (Option.some []) =
      (0, "✅ Vote recorded!" ++ " You have no votes left.",
       Option.some [Option.some ""]) := by
  have h := (C9_string_selection "" 1 VOTING_START (Option.some [])).2
    (le_refl _) (le_refl _)
  exact h.trans (by decide)

/-- C6: for every call to cast_votes whose current time is before the
configured opening instant, the call is declined unconditionally: the
votes store is untouched, the returned remaining is unchanged, and the
message includes the opening instant (it is the fixed sentence with the
formatted opening instant spliced in). -/
theorem C6_closed_before_opening (sel : Selection) (remaining : Int)
    (now : Nat) (store : Option (List Cell)) (h : now < VOTING_START) :
    cast_votes sel remaining now store =
      (remaining,
       "⚠️ Voting is not open yet. Please come back after " ++ votingStartStr ++ ".",
       store) := by
  rw [cast_votes, if_pos h]

/-- C6 witness: before the opening instant, remaining 3 with two names
selected stays 3 and the store stays as it was. -/
theorem C6_closed_before_opening_witness :
    cast_votes (Selection.list ["A", "B"]) 3 0 (Option.some []) =
      (3,
       "⚠️ Voting is not open yet. Please come back after " ++ votingStartStr ++ ".",
       Option.some []) :=
  C6_closed_before_opening (Selection.list ["A", "B"]) 3 0 (Option.some [])
    (by decide)

/-- C7: for every call to cast_votes with a non-negative remaining
budget, the returned budget is never negative and never exceeds the
incoming budget. -/
theorem C7_budget_bounds (sel : Selection) (remaining : Int) (now : Nat)
    (store : Option (List Cell)) (h : 0 ≤ remaining) :
    0 ≤ (cast_votes sel remaining now store).1 ∧
      (cast_votes sel remaining now store).1 ≤ remaining := by
  rw [cast_votes]
  split
  · exact ⟨h, le_refl _⟩
  split
  · exact ⟨h, le_refl _⟩
  dsimp only
  split
  · exact ⟨h, le_refl _⟩
  split
  · exact ⟨h, le_refl _⟩
  rename_i hpos hlen
  dsimp only
  omega

/-- C7 witness: a successful cast at the opening instant keeps the
budget within bounds. -/
theorem C7_budget_bounds_witness :
    0 ≤ (cast_votes (Selection.list ["A"]) 3 VOTING_START (Option.some [])).1 ∧
      (cast_votes (Selection.list ["A"]) 3 VOTING_START (Option.some [])).1 ≤ 3 :=
  C7_budget_bounds (Selection.list ["A"]) 3 VOTING_START (Option.some [])
    (by decide)

/-- C8: an unreadable or corrupt backing store is replaced by an empty
table, so get_leaderboard computes the same rows as with an empty store,
and with both stores unreadable it returns zero rows; the embedding is a
total function, so no error reaches the caller. -/
theorem C8_unreadable_is_empty :
    (∀ v, get_leaderboard Option.none v = get_leaderboard (Option.some []) v) ∧
    (∀ s, get_leaderboard s Option.none = get_leaderboard s (Option.some [])) ∧
    get_leaderboard Option.none Option.none = [] :=
  ⟨fun _ => rfl, fun _ => rfl, rfl⟩

/-- C2: get_leaderboard returns the row set sorted by vote count
descending and, for each count, the rows of that count keep exactly the
relative order of the unsorted row list (de-duplicated submission names
in first-seen order, then orphan voted names in first-encountered order
appended after them); with submissions A, B, C and votes A, A, B the
rows are exactly (A,2), (B,1), (C,0). -/
theorem C2_leaderboard_sorted_stable (subs : Option (List SubRow))
    (votes : Option (List Cell)) :
    (get_leaderboard subs votes).Pairwise (fun a b => b.2 ≤ a.2) ∧
    (∀ c : Nat, (get_leaderboard subs votes).filter (fun r => r.2 == c) =
        (leaderboardBase subs votes).filter (fun r => r.2 == c)) ∧
    get_leaderboard
        (Option.some [⟨Option.some "A", Option.none, Option.none⟩,
          ⟨Option.some "B", Option.none, Option.none⟩,
          ⟨Option.some "C", Option.none, Option.none⟩])
        (Option.some [Option.some "A", Option.some "A", Option.some "B"]) =
      [("A", 2), ("B", 1), ("C", 0)] :=
  ⟨pairwise_sortVotesDesc _, fun c => filter_sortVotesDesc _ c, by decide⟩

/-- C10: every leaderboard row whose name is not among the known
submission names has at least one vote, and every zero-vote row belongs
to a submitted name. -/
theorem C10_orphan_rows_have_votes (subs : Option (List SubRow))
    (votes : Option (List Cell)) (r : String × Nat)
    (hr : r ∈ get_leaderboard subs votes) :
    (r.1 ∉ allSubNames subs → 1 ≤ r.2) ∧
    (r.2 = 0 → r.1 ∈ allSubNames subs) := by
  have hb : r ∈ leaderboardBase subs votes := mem_sortVotesDesc.mp hr
  have key : r.1 ∈ allSubNames subs ∨
      (r.1 ∉ allSubNames subs ∧ 1 ≤ r.2) := by
    simp only [leaderboardBase, List.mem_append, List.mem_map,
      List.mem_filter, decide_eq_true_eq] at hb
    rcases hb with ⟨n, hn, rfl⟩ | ⟨n, ⟨hn, hna⟩, rfl⟩
    · exact Or.inl hn
    · refine Or.inr ⟨by simpa using hna, ?_⟩
      exact List.count_pos_iff.mpr (mem_of_mem_dedupFirst hn)
  constructor
  · intro hnot
    rcases key with h | h
    · exact absurd h hnot
    · exact h.2
  · intro h0
    rcases key with h | h
    · exact h
    · omega

/-- C10 witness: a submitted name with no votes is a zero-count row and
is indeed among the submission names. -/
theorem C10_orphan_rows_have_votes_witness :
    ("A", 0) ∈ get_leaderboard
        (Option.some [⟨Option.some "A", Option.none, Option.none⟩])
        (Option.some []) ∧
    "A" ∈ allSubNames (Option.some [⟨Option.some "A", Option.none, Option.none⟩]) := by
  refine ⟨by decide, ?_⟩
  exact (C10_orphan_rows_have_votes
    (Option.some [⟨Option.some "A", Option.none, Option.none⟩])
    (Option.some []) ("A", 0) (by decide)).2 rfl

/-- C5: add_name declines, with a user-facing reason and the store left
untouched, exactly when the trimmed name is empty, the trimmed tag is
empty, or the lower-cased trimmed name matches a lower-cased stored
name; otherwise it appends exactly one record and reports success.
Consequently, after a successful submission, submitting any case
variation of the same name again is declined and leaves the store as it
was, so no duplicate record appears. -/
theorem C5_submit_validation (name tag nowStr : String)
    (store : Option (List SubRow)) :
    (submitDeclineCond name tag store →
       (add_name name tag store nowStr).2 = store ∧
       ((add_name name tag store nowStr).1 = "⚠️ Please enter a team name." ∨
        (add_name name tag store nowStr).1 = "⚠️ Please include an anonymous tag." ∨
        (add_name name tag store nowStr).1 =
          "⚠️ The name \x27" ++ pyStrip name ++ "\x27 has already been submitted.")) ∧
    (¬ submitDeclineCond name tag store →
       add_name name tag store nowStr =
         ("✅ Team name \x27" ++ pyStrip name ++ "\x27 with tag \x27" ++
            pyStrip tag ++ "\x27 submitted successfully at " ++ nowStr ++ "!",
          Option.some (store.getD [] ++
            [⟨Option.some (pyStrip name), Option.some (pyStrip tag),
              Option.some nowStr⟩]))) ∧
    (¬ submitDeclineCond name tag store →
       ∀ name2 tag2 nowStr2, pyLower (pyStrip name2) = pyLower (pyStrip name) →
         (add_name name2 tag2 (add_name name tag store nowStr).2 nowStr2).2 =
             (add_name name tag store nowStr).2 ∧
           ((add_name name2 tag2 (add_name name tag store nowStr).2 nowStr2).1 =
              "⚠️ Please enter a team name." ∨
            (add_name name2 tag2 (add_name name tag store nowStr).2 nowStr2).1 =
              "⚠️ Please include an anonymous tag." ∨
            (add_name name2 tag2 (add_name name tag store nowStr).2 nowStr2).1 =
              "⚠️ The name \x27" ++ pyStrip name2 ++
                "\x27 has already been submitted.")) := by
  have success : ¬ submitDeclineCond name tag store →
      add_name name tag store nowStr =
        ("✅ Team name \x27" ++ pyStrip name ++ "\x27 with tag \x27" ++
           pyStrip tag ++ "\x27 submitted successfully at " ++ nowStr ++ "!",
         Option.some (store.getD [] ++
           [⟨Option.some (pyStrip name), Option.some (pyStrip tag),
             Option.some nowStr⟩])) := by
    intro h
    rw [submitDeclineCond] at h
    push_neg at h
    obtain ⟨h1, h2, h3⟩ := h
    simp only [add_name, if_neg h1, if_neg h2]
    rw [if_neg (by simpa using h3)]
  refine ⟨?_, success, ?_⟩
  · intro h
    by_cases h1 : pyStrip name = ""
    · simp [add_name, h1]
    by_cases h2 : pyStrip tag = ""
    · simp [add_name, h1, h2]
    have h3 : pyLower (pyStrip name) ∈
        (store.getD []).map (fun r => pyLower (cellStr r.name)) := by
      rcases h with h | h | h
      · exact absurd h h1
      · exact absurd h h2
      · exact h
    simp only [add_name, if_neg h1, if_neg h2]
    rw [if_pos (by simpa using h3)]
    exact ⟨rfl, Or.inr (Or.inr rfl)⟩
  · intro h name2 tag2 nowStr2 heq
    have hs := success h
    have hstore : (add_name name tag store nowStr).2 =
        Option.some (store.getD [] ++
          [⟨Option.some (pyStrip name), Option.some (pyStrip tag),
            Option.some nowStr⟩]) := by
      rw [hs]
    by_cases h1 : pyStrip name2 = ""
    · constructor
      · simp [add_name, h1]
      · exact Or.inl (by simp [add_name, h1])
    by_cases h2 : pyStrip tag2 = ""
    · constructor
      · simp [add_name, h1, h2]
      · exact Or.inr (Or.inl (by simp [add_name, h1, h2]))
    have hdup : pyLower (pyStrip name2) ∈
        ((store.getD [] ++
            ([⟨Option.some (pyStrip name), Option.some (pyStrip tag),
              Option.some nowStr⟩] : List SubRow)).map
          (fun r => pyLower (cellStr r.name))) := by
      simp only [List.map_append, List.mem_append, List.map_cons, List.map_nil]
      exact Or.inr (by simp [cellStr, heq])
    rw [hstore]
    constructor
    · simp only [add_name, Option.getD_some, if_neg h1, if_neg h2]
      rw [if_pos (by simpa using hdup)]
    · refine Or.inr (Or.inr ?_)
      simp only [add_name, Option.getD_some, if_neg h1, if_neg h2]
      rw [if_pos (by simpa using hdup)]

/-- C5 witness: submitting Alpha into an empty store succeeds and
appends the one record. -/
theorem C5_submit_validation_witness :
    add_name "Alpha" "kt" (Option.some []) "t1" =
      ("✅ Team name \x27Alpha\x27 with tag \x27kt\x27 submitted successfully at t1!",
       Option.some [⟨Option.some "Alpha", Option.some "kt", Option.some "t1"⟩]) := by
  have h := (C5_submit_validation "Alpha" "kt" "t1" (Option.some [])).2.1
    (by decide)
  exact h.trans (by decide)

/-- C3: a submissions row whose Name cell is missing still yields a
leaderboard row, named nan with zero votes, because astype runs before
dropna and renders the missing value as the string nan, leaving dropna
nothing to remove; the claimed dropping of empty or missing names does
not happen. -/
theorem C3_missing_name_yields_row :
    get_leaderboard (Option.some [⟨Option.none, Option.none, Option.none⟩])
      (Option.some []) = [("nan", 0)] := by
  decide

end NameVoting
